import Mathlib

/-!
Verification development for the rolesapi service (src/index.js and its
iteration variants). The JavaScript source is shallowly embedded: the
process-wide TTL cache becomes an explicit `Cache` record threaded through
the handler functions, database query outcomes become `Except Unit` values,
`Date.now()` becomes an explicit `now : Int` parameter, and JavaScript
truthiness is modelled faithfully where the source relies on it
(`cache.data && cache.timestamp && ...`, `user.roles ? ... : []`,
`!apiKey`, `parseInt(...) || 500`).
-/

namespace RolesApi

/-- Row of the `channel_activity` table as consumed by the handlers in
src/index.js: `user_id`, `username`, `roles` (nullable delimited string),
`on_server` flag and `last_message` activity timestamp. -/
structure Row where
  user_id : String
  username : String
  roles : Option String
  on_server : Bool
  last_message : Int
deriving DecidableEq, Repr

/-- User object built by the row-mapping code
(`{discordid, username, roles: user.roles ? user.roles.split(', ') : []}`). -/
structure User where
  discordid : String
  username : String
  roles : List String
deriving DecidableEq, Repr

/-- The process-wide cache object of src/index.js lines 15-19:
`{ data: null, timestamp: null, cacheTime: 5 * 60 * 1000 }`.
`data` is `null` or the last computed user array; `timestamp` is `null`
or the `Date.now()` of the last successful refresh. -/
structure Cache where
  data : Option (List User)
  timestamp : Option Int
  cacheTime : Int
deriving DecidableEq, Repr

/-- The cache at process start: both fields `null`, TTL five minutes. -/
def cache0 : Cache := { data := none, timestamp := none, cacheTime := 300000 }

/-- HTTP response as observed by the client: either a 200 with a JSON body,
or an explicit status code with an error message. -/
inductive ApiResponse (α : Type) where
  | ok (body : α)
  | status (code : Nat) (msg : String)
deriving DecidableEq, Repr

/-- Status code of a response (200 for an `ok` body). -/
def statusCode {α : Type} : ApiResponse α → Nat
  | .ok _ => 200
  | .status n _ => n

/-- JavaScript `String.prototype.split` with the fixed two-character
separator `", "`: scan left to right, cut at each occurrence of the
separator; `acc` holds the characters of the current piece in reverse. -/
def splitCommaSpace : List Char → List Char → List (List Char)
  | [], acc => [acc.reverse]
  | [c], acc => [(c :: acc).reverse]
  | c1 :: c2 :: cs, acc =>
    if c1 = ',' ∧ c2 = ' ' then acc.reverse :: splitCommaSpace cs []
    else splitCommaSpace (c2 :: cs) (c1 :: acc)

/-- Role decomposition `user.roles ? user.roles.split(', ') : []`
(src/index.js lines 145 and 199). In JavaScript, `null` and the empty
string are falsy, so both yield `[]`; a non-empty string is split on the
two-character separator. -/
def splitRoles (roles : Option String) : List String :=
  match roles with
  | none => []
  | some s => if s = "" then [] else (splitCommaSpace s.toList []).map (fun cs => String.mk cs)

/-- Row-to-user mapping applied by both the listing handler
(src/index.js lines 142-146) and the lookup handler (lines 196-200). -/
def mapRow (r : Row) : User :=
  { discordid := r.user_id, username := r.username, roles := splitRoles r.roles }

/-- The cache check of src/index.js line 127:
`cache.data && cache.timestamp && (now - cache.timestamp < cache.cacheTime)`.
`cache.data` is truthy exactly when it is a (possibly empty) array, i.e.
non-`null`; `cache.timestamp` is a number or `null`, and is truthy exactly
when it is a non-`null`, non-zero number. -/
def cacheGet (c : Cache) (now : Int) : Option (List User) :=
  match c.data, c.timestamp with
  | some d, some t => if t ≠ 0 ∧ now - t < c.cacheTime then some d else none
  | _, _ => none

/-- The `GET /api/discord` handler body (src/index.js lines 125-155) as a
function of the cache state, the current time and the outcome of the
listing query (`db`); it yields the HTTP response and the new cache state.
On a cache hit the query is not executed, so the handler ignores `db`; on
a miss, a query error is caught and answered with a 500 without touching
the cache, and a successful query's rows are mapped and stored together
with `now`. `db` carries the rows the database returns for the
`SELECT DISTINCT ON (user_id) ...` statement. -/
def handleDiscord (c : Cache) (now : Int) (db : Except Unit (List Row)) :
    ApiResponse (List User) × Cache :=
  match cacheGet c now with
  | some d => (.ok d, c)
  | none =>
    match db with
    | .error _ => (.status 500 "Failed to fetch all users", c)
    | .ok rows =>
      let users := rows.map mapRow
      (.ok users, { c with data := some users, timestamp := some now })

/-- Outcome of the `authenticateApiKey` middleware (src/index.js lines
33-52): either a direct denial response with its status code and message,
or `proceed`, meaning `next()` was called and the endpoint handler runs. -/
inductive AuthResult where
  | denied (code : Nat) (msg : String)
  | proceed
deriving DecidableEq, Repr

/-- Rows returned by `SELECT apikey FROM apikeys WHERE apikey = $1`
for a key table `keys` and a supplied key `k`. -/
def apikeyQuery (keys : List String) (k : String) : List String :=
  keys.filter (fun s => s = k)

/-- The `authenticateApiKey` middleware (src/index.js lines 33-52).
`apiKey` is the `x-api-key` header (`none` when absent); `q` is the
outcome of the key-validation query, which is only executed when the
header is truthy (present and non-empty, since `!apiKey` is true for
the empty string). An errored query is caught and answered 500; an empty
row set is answered 401; otherwise `next()` runs. -/
def authenticateApiKey (apiKey : Option String) (q : Except Unit (List String)) :
    AuthResult :=
  match apiKey with
  | none => .denied 401 "API key is required"
  | some k =>
    if k = "" then .denied 401 "API key is required"
    else
      match q with
      | .error _ => .denied 500 "Authentication error"
      | .ok rows => if rows = [] then .denied 401 "Invalid API key" else .proceed

/-- The full `GET /api/discord` route: `authenticateApiKey` runs first
(src/index.js line 124) and the handler body runs only on `proceed`.
A denial is returned as-is and the cache is left untouched. -/
def guardedDiscord (apiKey : Option String) (q : Except Unit (List String))
    (c : Cache) (now : Int) (db : Except Unit (List Row)) :
    ApiResponse (List User) × Cache :=
  match authenticateApiKey apiKey q with
  | .denied code msg => (.status code msg, c)
  | .proceed => handleDiscord c now db

/-- Cache states reachable from process start through any sequence of
requests to the guarded listing route (the only code that writes the
cache: src/index.js lines 148-149). -/
inductive Reachable : Cache → Prop where
  | init : Reachable cache0
  | step (c : Cache) (apiKey : Option String) (q : Except Unit (List String))
      (now : Int) (db : Except Unit (List Row)) :
      Reachable c → Reachable (guardedDiscord apiKey q c now db).2

/-- First occurrences of a list of keys, in order, duplicates removed;
`seen` accumulates the keys already emitted. Used to model the one-group-
per-distinct-key shape of `DISTINCT ON` and `GROUP BY` results. -/
def dedupFirst (seen : List String) : List String → List String
  | [] => []
  | k :: ks => if k ∈ seen then dedupFirst seen ks else k :: dedupFirst (k :: seen) ks

/-- Rows of `rows` whose `user_id` is `uid`. -/
def rowsFor (uid : String) (rows : List Row) : List Row :=
  rows.filter (fun r => r.user_id = uid)

/-- Of two rows, the one with the greater `last_message` (the first on a
tie). Reducer behind `pickLatest`. -/
def laterRow (a b : Row) : Row :=
  if a.last_message < b.last_message then b else a

/-- Row with the greatest `last_message` among `first :: rest` (the first
such row in list order when several tie). This models which row
`DISTINCT ON (user_id) ... ORDER BY user_id, last_message DESC` keeps for
one `user_id` group; PostgreSQL leaves the choice among tied rows
unspecified, modelled here as the earliest one. -/
def pickLatest (first : Row) (rest : List Row) : Row :=
  rest.foldl laterRow first

/-- Result rows of `SELECT DISTINCT ON (user_id) ... ORDER BY user_id,
last_message DESC` over `rows`: one row per distinct `user_id`, the row
with the most recent `last_message` of its group. Groups are emitted in
first-occurrence order; the SQL emits them in `user_id` order, which no
claim depends on. -/
def distinctOnUser (rows : List Row) : List Row :=
  (dedupFirst [] (rows.map (fun r => r.user_id))).filterMap (fun uid =>
    match rowsFor uid rows with
    | [] => none
    | r :: rs => some (pickLatest r rs))

/-- Rows the listing query considers: `WHERE on_server = true`
(src/index.js line 138). -/
def listingRows (table : List Row) : List Row :=
  table.filter (fun r => r.on_server)

/-- The listing query of src/index.js lines 132-140 over a
`channel_activity` table. -/
def listingQuery (table : List Row) : List Row :=
  distinctOnUser (listingRows table)

/-- Rows the single-record lookup considers:
`WHERE on_server = true AND (user_id = $1 OR username = $1)`
(src/index.js lines 185-186). -/
def lookupRows (table : List Row) (p : String) : List Row :=
  table.filter (fun r => r.on_server ∧ (r.user_id = p ∨ r.username = p))

/-- Result rows of the lookup query of src/index.js lines 179-189:
the `DISTINCT ON` selection over the matching rows, truncated by
`LIMIT 1`. -/
def lookupResultRows (table : List Row) (p : String) : List Row :=
  (distinctOnUser (lookupRows table p)).take 1

/-- The `GET /api/discord/:idusername` handler body (src/index.js lines
175-207) as a function of the outcome of the lookup query: an errored
query is caught and answered 500, zero rows are answered 404, and
otherwise the first row is mapped and returned with status 200. -/
def handleLookup (db : Except Unit (List Row)) : ApiResponse User :=
  match db with
  | .error _ => .status 500 "Failed to fetch user"
  | .ok [] => .status 404 "User not found"
  | .ok (r :: _) => .ok (mapRow r)

/-- Numeric value of a string of decimal digits. -/
def digitsToNat (cs : List Char) : Nat :=
  cs.foldl (fun acc c => 10 * acc + (c.toNat - 48)) 0

/-- JavaScript `parseInt(s, 10)`: leading whitespace is skipped, an
optional sign is read, then the longest prefix of decimal digits; the
result is `none` (NaN) when no digit is read. -/
def jsParseInt (s : String) : Option Int :=
  let cs := s.toList.dropWhile Char.isWhitespace
  let signed : Int × List Char :=
    match cs with
    | c :: rest => if c = '-' then (-1, rest) else if c = '+' then (1, rest) else (1, cs)
    | [] => (1, [])
  let ds := signed.2.takeWhile Char.isDigit
  if ds = [] then none else some (signed.1 * (digitsToNat ds : Nat))

/-- The threshold computation `parseInt(req.query.msg, 10) || 500` shared
by the activity endpoints (src/unnamed/part_001 lines 143, 181 and 428):
a missing parameter parses to NaN, and NaN and 0 are falsy, so both fall
back to 500. -/
def msgThreshold (q : Option String) : Int :=
  match q with
  | none => 500
  | some s =>
    match jsParseInt s with
    | none => 500
    | some n => if n = 0 then 500 else n

/-- Row of the `messages_data` table: `userid`, `date` (modelled as an
integer day), `messages` count. -/
structure MsgRow where
  userid : String
  date : Int
  messages : Int
deriving DecidableEq, Repr

/-- Rows of `messages_data` with `date BETWEEN d1 AND d2`. -/
def windowRows (rows : List MsgRow) (d1 d2 : Int) : List MsgRow :=
  rows.filter (fun r => d1 ≤ r.date ∧ r.date ≤ d2)

/-- `SUM(messages)` for one `userid` over `rows`. -/
def totalFor (rows : List MsgRow) (uid : String) : Int :=
  ((rows.filter (fun r => r.userid = uid)).map (fun r => r.messages)).sum

/-- The trailing-window aggregation of src/unnamed/part_001 lines 151-157
and 189-195: `SELECT userid, SUM(messages) ... WHERE date BETWEEN $1 AND $2
GROUP BY userid HAVING SUM(messages) > $3`. One group per distinct
`userid` occurring in the window, kept when its sum strictly exceeds the
threshold. -/
def coreUserIds (rows : List MsgRow) (d1 d2 t : Int) : List String :=
  let w := windowRows rows d1 d2
  (dedupFirst [] (w.map (fun r => r.userid))).filter (fun uid => t < totalFor w uid)

/-- Row of the `snapshot_data` table: `user_id`, `snapshot_id`,
`message_count`. -/
structure SnapRow where
  user_id : String
  snapshot_id : Int
  message_count : Int
deriving DecidableEq, Repr

/-- `SUM(message_count)` for one user within one snapshot
(the grouped sums behind `nowMap` and `weekMap`,
src/unnamed/part_001 lines 440-454). -/
def snapSum (rows : List SnapRow) (sid : Int) (uid : String) : Int :=
  ((rows.filter (fun r => r.snapshot_id = sid ∧ r.user_id = uid)).map
    (fun r => r.message_count)).sum

/-- The snapshot-difference selection of src/unnamed/part_001 lines
456-463: iterate over the users of the fresh snapshot `freshId`, take the
week-ago count from snapshot `freshId - 42` with `weekMap.get(userId) || 0`
(0 when the user is absent there), and keep the user when the difference
strictly exceeds the threshold. -/
def snapshotDiffIds (rows : List SnapRow) (freshId t : Int) : List String :=
  let nowIds := dedupFirst []
    ((rows.filter (fun r => r.snapshot_id = freshId)).map (fun r => r.user_id))
  nowIds.filter (fun uid => t < snapSum rows freshId uid - snapSum rows (freshId - 42) uid)

/-! Helper lemmas about the query-model building blocks. -/

theorem mem_dedupFirst (x : String) (l : List String) :
    ∀ seen, x ∈ dedupFirst seen l ↔ x ∈ l ∧ x ∉ seen := by
  induction l with
  | nil => intro seen; simp [dedupFirst]
  | cons k ks ih =>
    intro seen
    by_cases hk : k ∈ seen
    · by_cases hx : x = k
      · subst hx
        simp [dedupFirst, hk, ih, hk]
      · simp [dedupFirst, hk, ih, hx]
    · by_cases hx : x = k
      · subst hx
        simp [dedupFirst, hk, ih]
      · simp [dedupFirst, hk, ih, hx, List.mem_cons]

theorem nodup_dedupFirst (l : List String) :
    ∀ seen, (dedupFirst seen l).Nodup := by
  induction l with
  | nil => intro seen; simp [dedupFirst]
  | cons k ks ih =>
    intro seen
    by_cases hk : k ∈ seen
    · simpa [dedupFirst, hk] using ih seen
    · have hknot : k ∉ dedupFirst (k :: seen) ks := by
        intro hmem
        exact ((mem_dedupFirst k ks (k :: seen)).1 hmem).2 (List.mem_cons_self k seen)
      simpa [dedupFirst, hk] using List.Nodup.cons hknot (ih (k :: seen))

theorem laterRow_cases (a b : Row) : laterRow a b = a ∨ laterRow a b = b := by
  unfold laterRow
  split
  · right; rfl
  · left; rfl

theorem laterRow_le_left (a b : Row) :
    a.last_message ≤ (laterRow a b).last_message := by
  unfold laterRow
  split <;> omega

theorem laterRow_le_right (a b : Row) :
    b.last_message ≤ (laterRow a b).last_message := by
  unfold laterRow
  split <;> omega

theorem pickLatest_mem (rest : List Row) :
    ∀ first, pickLatest first rest ∈ first :: rest := by
  induction rest with
  | nil => intro first; simp [pickLatest]
  | cons r rs ih =>
    intro first
    have hstep : pickLatest first (r :: rs) = pickLatest (laterRow first r) rs := rfl
    have h := ih (laterRow first r)
    rw [hstep]
    rcases List.mem_cons.1 h with h1 | h1
    · rcases laterRow_cases first r with h2 | h2 <;> rw [h1, h2] <;> simp
    · simp [List.mem_cons.2 (Or.inr (List.mem_cons.2 (Or.inr h1)))]

theorem pickLatest_le (rest : List Row) :
    ∀ first, ∀ x ∈ first :: rest,
      x.last_message ≤ (pickLatest first rest).last_message := by
  induction rest with
  | nil =>
    intro first x hx
    rcases List.mem_cons.1 hx with h | h
    · rw [h]; exact le_refl _
    · cases h
  | cons r rs ih =>
    intro first x hx
    have hstep : pickLatest first (r :: rs) = pickLatest (laterRow first r) rs := rfl
    have hhead := ih (laterRow first r) (laterRow first r) (List.mem_cons_self _ _)
    rw [hstep]
    rcases List.mem_cons.1 hx with h | h
    · rw [h]; exact le_trans (laterRow_le_left first r) hhead
    · rcases List.mem_cons.1 h with h1 | h1
      · rw [h1]; exact le_trans (laterRow_le_right first r) hhead
      · exact ih (laterRow first r) x (List.mem_cons.2 (Or.inr h1))

theorem mem_rowsFor (x : Row) (uid : String) (rows : List Row) :
    x ∈ rowsFor uid rows ↔ x ∈ rows ∧ x.user_id = uid := by
  simp [rowsFor]

theorem distinctOnUser_mem (rows : List Row) (r : Row)
    (h : r ∈ distinctOnUser rows) :
    r ∈ rows ∧ ∀ r2 ∈ rows, r2.user_id = r.user_id →
      r2.last_message ≤ r.last_message := by
  unfold distinctOnUser at h
  rcases List.mem_filterMap.1 h with ⟨uid, _, hf⟩
  rcases hcase : rowsFor uid rows with _ | ⟨a, as⟩
  · rw [hcase] at hf; cases hf
  · rw [hcase] at hf
    have hr : r = pickLatest a as := by
      have := hf
      simp at this
      exact this.symm
    have hmem : r ∈ rowsFor uid rows := by
      rw [hcase, hr]; exact pickLatest_mem as a
    have huid : r.user_id = uid := ((mem_rowsFor r uid rows).1 hmem).2
    refine ⟨((mem_rowsFor r uid rows).1 hmem).1, ?_⟩
    intro r2 h2 h2uid
    have h2mem : r2 ∈ rowsFor uid rows :=
      (mem_rowsFor r2 uid rows).2 ⟨h2, by rw [h2uid, huid]⟩
    rw [hcase] at h2mem
    rw [hr]
    exact pickLatest_le as a r2 h2mem

theorem distinctOnUser_exists (rows : List Row) (uid : String)
    (h : ∃ r ∈ rows, r.user_id = uid) :
    ∃ r ∈ distinctOnUser rows, r.user_id = uid := by
  rcases h with ⟨r0, hr0, hr0uid⟩
  have hne : rowsFor uid rows ≠ [] := by
    intro hnil
    have : r0 ∈ rowsFor uid rows := (mem_rowsFor r0 uid rows).2 ⟨hr0, hr0uid⟩
    rw [hnil] at this
    cases this
  have huidmem : uid ∈ dedupFirst [] (rows.map (fun r => r.user_id)) := by
    refine (mem_dedupFirst uid _ []).2 ⟨?_, by simp⟩
    exact List.mem_map.2 ⟨r0, hr0, hr0uid⟩
  rcases hcase : rowsFor uid rows with _ | ⟨a, as⟩
  · exact absurd hcase hne
  · refine ⟨pickLatest a as, ?_, ?_⟩
    · unfold distinctOnUser
      refine List.mem_filterMap.2 ⟨uid, huidmem, ?_⟩
      rw [hcase]
    · have : pickLatest a as ∈ rowsFor uid rows := by
        rw [hcase]; exact pickLatest_mem as a
      exact ((mem_rowsFor _ uid rows).1 this).2

theorem distinctOnUser_unique (rows : List Row) (r1 r2 : Row)
    (h1 : r1 ∈ distinctOnUser rows) (h2 : r2 ∈ distinctOnUser rows)
    (huid : r1.user_id = r2.user_id) : r1 = r2 := by
  unfold distinctOnUser at h1 h2
  rcases List.mem_filterMap.1 h1 with ⟨u1, hu1, hf1⟩
  rcases List.mem_filterMap.1 h2 with ⟨u2, hu2, hf2⟩
  have key : ∀ u r, (match rowsFor u rows with
      | [] => none
      | a :: as => some (pickLatest a as)) = some r → r.user_id = u := by
    intro u r hf
    rcases hcase : rowsFor u rows with _ | ⟨a, as⟩
    · rw [hcase] at hf; cases hf
    · rw [hcase] at hf
      simp at hf
      have : pickLatest a as ∈ rowsFor u rows := by
        rw [hcase]; exact pickLatest_mem as a
      rw [← hf]
      exact ((mem_rowsFor _ u rows).1 this).2
  have e1 : r1.user_id = u1 := key u1 r1 hf1
  have e2 : r2.user_id = u2 := key u2 r2 hf2
  have : u1 = u2 := by rw [← e1, ← e2, huid]
  subst this
  rw [hf1] at hf2
  exact Option.some.inj hf2.symm ▸ rfl

theorem distinctOnUser_strictmax (rows : List Row) (best : Row)
    (hmem : best ∈ rows)
    (hstrict : ∀ r2 ∈ rows, r2.user_id = best.user_id → r2 ≠ best →
      r2.last_message < best.last_message) :
    best ∈ distinctOnUser rows := by
  rcases distinctOnUser_exists rows best.user_id ⟨best, hmem, rfl⟩ with ⟨r, hr, hruid⟩
  rcases distinctOnUser_mem rows r hr with ⟨hrrows, hrmax⟩
  by_cases heq : r = best
  · rw [← heq]; exact hr
  · have h1 : r.last_message < best.last_message := hstrict r hrrows hruid heq
    have h2 : best.last_message ≤ r.last_message := hrmax best hmem hruid.symm
    omega

theorem distinctOnUser_eq_nil (rows : List Row) :
    distinctOnUser rows = [] ↔ rows = [] := by
  constructor
  · intro h
    rcases rows with _ | ⟨r, rest⟩
    · rfl
    · rcases distinctOnUser_exists (r :: rest) r.user_id
        ⟨r, List.mem_cons_self r rest, rfl⟩ with ⟨x, hx, _⟩
      rw [h] at hx
      cases hx
  · intro h
    rw [h]
    rfl

theorem take_one_eq_cons {α : Type} (l : List α) (r : α) (rest : List α)
    (h : l.take 1 = r :: rest) : r ∈ l ∧ rest = [] := by
  rcases l with _ | ⟨a, as⟩
  · cases h
  · simp [List.take] at h
    exact ⟨by rw [← h.1]; exact List.mem_cons_self a as, h.2⟩

/-- Every request to the guarded listing route either leaves the cache
entry exactly as it was, or replaces payload and timestamp together in a
single assignment pair, keeping the TTL. -/
theorem guardedDiscord_state (apiKey : Option String) (q : Except Unit (List String))
    (c : Cache) (now : Int) (db : Except Unit (List Row)) :
    (guardedDiscord apiKey q c now db).2 = c ∨
    ∃ users, (guardedDiscord apiKey q c now db).2 =
      { data := some users, timestamp := some now, cacheTime := c.cacheTime } := by
  unfold guardedDiscord
  cases authenticateApiKey apiKey q with
  | denied code msg => left; rfl
  | proceed =>
    unfold handleDiscord
    cases hget : cacheGet c now with
    | some d => left; rfl
    | none =>
      cases db with
      | error e => left; rfl
      | ok rows => right; exact ⟨rows.map mapRow, rfl⟩

theorem cacheGet_eq_some (c : Cache) (now : Int) (d : List User) :
    cacheGet c now = some d ↔
      c.data = some d ∧ ∃ t, c.timestamp = some t ∧ t ≠ 0 ∧ now - t < c.cacheTime := by
  rcases c with ⟨cd, ct, ttl⟩
  rcases cd with _ | l <;> rcases ct with _ | t <;> simp [cacheGet]
  by_cases hc : t ≠ 0 ∧ now - t < ttl
  · simp [hc, hc.1, hc.2, eq_comm]
  · simp [hc]

theorem handleDiscord_hit (c : Cache) (now : Int) (db : Except Unit (List Row))
    (d : List User) (h : cacheGet c now = some d) :
    handleDiscord c now db = (.ok d, c) := by
  simp [handleDiscord, h]

theorem handleDiscord_miss_error (c : Cache) (now : Int) (e : Unit)
    (h : cacheGet c now = none) :
    handleDiscord c now (.error e) = (.status 500 "Failed to fetch all users", c) := by
  simp [handleDiscord, h]

theorem handleDiscord_miss_ok (c : Cache) (now : Int) (rows : List Row)
    (h : cacheGet c now = none) :
    handleDiscord c now (.ok rows) =
      (.ok (rows.map mapRow),
        { data := some (rows.map mapRow), timestamp := some now,
          cacheTime := c.cacheTime }) := by
  simp [handleDiscord, h]

/-! Claim theorems. -/

/-- Claim C1, counterexample to the claim as stated: in the cache state with
payload `some []` and timestamp `some 0`, both payload and timestamp are
present and `now - timestamp = 0 - 0 < 300000`, yet the read at
`now = 0` is a miss, because the truthiness check `cache.timestamp &&`
on src/index.js line 127 treats the number 0 as absent. -/
theorem c1_cache_read_cex :
    (⟨some [], some 0, 300000⟩ : Cache).data = some [] ∧
    (⟨some [], some 0, 300000⟩ : Cache).timestamp = some 0 ∧
    ((0 : Int) - 0 < 300000) ∧
    cacheGet ⟨some [], some 0, 300000⟩ 0 = none := by
  refine ⟨rfl, rfl, by norm_num, ?_⟩
  simp [cacheGet]

/-- Claim C1 (amended): for every read of the listing cache at time `now`, with
the TTL fixed at 300000 ms, the stored payload is returned unchanged if
and only if a payload and a nonzero timestamp are present and
`now - timestamp < 300000`; otherwise the read is a miss. In particular a
listing stored with timestamp 1000 is served for a request at
`now = 300999` and is a miss at `now = 301000`. -/
theorem c1_cache_read_ttl (c : Cache) (now : Int) (hTTL : c.cacheTime = 300000) :
    (∀ d, cacheGet c now = some d ↔
      c.data = some d ∧ ∃ t, c.timestamp = some t ∧ t ≠ 0 ∧ now - t < 300000) ∧
    (∀ l : List User, cacheGet ⟨some l, some 1000, 300000⟩ 300999 = some l) ∧
    (∀ l : List User, cacheGet ⟨some l, some 1000, 300000⟩ 301000 = none) := by
  refine ⟨?_, ?_, ?_⟩
  · intro d
    rw [cacheGet_eq_some, hTTL]
  · intro l
    norm_num [cacheGet]
  · intro l
    norm_num [cacheGet]

/-- Claim C1 witness: the amended theorem applied to the concrete state of the
spec scenario, with its TTL hypothesis discharged by evaluation. -/
theorem c1_cache_read_ttl_witness :
    cacheGet ⟨some [], some 1000, 300000⟩ 300999 = some [] :=
  (c1_cache_read_ttl ⟨some [], some 1000, 300000⟩ 300999 rfl).2.1 []

/-- Claim C2: if the listing refresh query fails on a cache miss, the handler
answers 500 and returns the cache exactly as it was, so payload,
timestamp and TTL are unmodified and every subsequent cache read returns
the same result it would have returned before the failed refresh. -/
theorem c2_failed_refresh (c : Cache) (now : Int) (e : Unit)
    (hmiss : cacheGet c now = none) :
    handleDiscord c now (.error e) = (.status 500 "Failed to fetch all users", c) ∧
    statusCode (handleDiscord c now (.error e)).1 = 500 ∧
    (∀ later, cacheGet (handleDiscord c now (.error e)).2 later = cacheGet c later) := by
  refine ⟨?_, ?_, ?_⟩ <;> simp [handleDiscord, hmiss, statusCode]

/-- Claim C2 witness: the failed-refresh theorem at the initial cache and time 0,
with the cache-miss hypothesis discharged by evaluation. -/
theorem c2_failed_refresh_witness :
    handleDiscord cache0 0 (.error ()) =
      (.status 500 "Failed to fetch all users", cache0) :=
  (c2_failed_refresh cache0 0 () (by simp [cacheGet, cache0])).1

/-- Claim C3, counterexample to the claim as stated: when the refresh happens at
time 0, the store's zero rows are cached as `some []` with timestamp
`some 0`, yet the subsequent request at `now = 1` — inside the TTL
window — is a cache miss, because the truthiness check on the stored
timestamp 0 fails. -/
theorem c3_empty_listing_cex :
    (handleDiscord cache0 0 (.ok [])).2.data = some [] ∧
    (handleDiscord cache0 0 (.ok [])).2.timestamp = some 0 ∧
    ((1 : Int) - 0 < 300000) ∧
    cacheGet (handleDiscord cache0 0 (.ok [])).2 1 = none := by
  refine ⟨rfl, rfl, by norm_num, ?_⟩
  simp [handleDiscord, cacheGet, cache0]

/-- Claim C3 (amended): when the backing store returns zero rows for the full
listing query during a refresh at a nonzero time `now`, the empty
sequence `[]` is stored into the cache together with `now`, and every
subsequent listing request within the TTL window is served `[]` as a
cache hit — regardless of what the backing store would answer, i.e.
without re-querying it — not treated as a cache miss. -/
theorem c3_empty_listing_cached (c : Cache) (now : Int)
    (hmiss : cacheGet c now = none) (hnz : now ≠ 0) :
    (handleDiscord c now (.ok [])).1 = .ok [] ∧
    (handleDiscord c now (.ok [])).2.data = some [] ∧
    (handleDiscord c now (.ok [])).2.timestamp = some now ∧
    (∀ later db2, later - now < c.cacheTime →
      handleDiscord (handleDiscord c now (.ok [])).2 later db2 =
        (.ok [], (handleDiscord c now (.ok [])).2)) := by
  have hstep := handleDiscord_miss_ok c now [] hmiss
  refine ⟨by simp [hstep], by simp [hstep], by simp [hstep], ?_⟩
  intro later db2 hfresh
  have hget : cacheGet (handleDiscord c now (.ok [])).2 later = some [] := by
    rw [hstep]
    simp [cacheGet, hnz, hfresh]
  exact handleDiscord_hit _ later db2 [] hget

/-- Claim C3 witness: the amended theorem at the initial cache and refresh time
5, with both hypotheses discharged by evaluation, and its within-TTL
conjunct applied at the later time 10. -/
theorem c3_empty_listing_cached_witness :
    handleDiscord (handleDiscord cache0 5 (.ok [])).2 10 (.ok []) =
      (.ok [], (handleDiscord cache0 5 (.ok [])).2) :=
  (c3_empty_listing_cached cache0 5 (by simp [cacheGet, cache0]) (by norm_num)).2.2.2
    10 (.ok []) (by norm_num [cache0])

/-- Claim C4: for every row produced by the listing or single-record query, the
delimited role string is decomposed into individual role labels: the
string `"A, B"` yields the two labels `A` and `B`, and an absent or empty
role string yields the empty collection, never a one-element collection
containing the empty string. -/
theorem c4_role_decomposition :
    splitRoles (some "A, B") = ["A", "B"] ∧
    splitRoles none = [] ∧
    splitRoles (some "") = [] ∧
    (∀ r : Row, (mapRow r).roles = splitRoles r.roles) ∧
    (∀ r : Row, r.roles = some "A, B" → (mapRow r).roles = ["A", "B"]) ∧
    (∀ r : Row, r.roles = none ∨ r.roles = some "" → (mapRow r).roles = []) := by
  refine ⟨by decide, rfl, by decide, fun r => rfl, ?_, ?_⟩
  · intro r h
    simp [mapRow, h]
    decide
  · intro r h
    rcases h with h | h <;> simp [mapRow, h, splitRoles]

/-- Claim C4 witness: the row-level conjuncts applied to concrete rows, their
hypotheses discharged by evaluation. -/
theorem c4_role_decomposition_witness :
    (mapRow ⟨"1", "u", some "A, B", true, 0⟩).roles = ["A", "B"] ∧
    (mapRow ⟨"2", "v", none, true, 0⟩).roles = [] :=
  ⟨c4_role_decomposition.2.2.2.2.1 ⟨"1", "u", some "A, B", true, 0⟩ rfl,
   c4_role_decomposition.2.2.2.2.2 ⟨"2", "v", none, true, 0⟩ (Or.inl rfl)⟩

/-- Claim C5: for every state of the backing store, the listing query returns
exactly one Member row per distinct identity that has an on-server
record; every returned row is an on-server record of the store whose
`last_message` is maximal within its identity group, and an on-server
record that is strictly more recent than every other record of its
identity is the one returned, so the emitted name and role data match
the most recent record. The same most-recent selection applies to the
rows of the single-identity lookup query. -/
theorem c5_listing_dedup (table : List Row) (uid : String)
    (hex : ∃ r, r ∈ table ∧ r.on_server = true ∧ r.user_id = uid) :
    (∃! r, r ∈ listingQuery table ∧ r.user_id = uid) ∧
    (∀ r, r ∈ listingQuery table →
      r ∈ listingRows table ∧
      ∀ r2 ∈ listingRows table, r2.user_id = r.user_id →
        r2.last_message ≤ r.last_message) ∧
    (∀ best, best ∈ listingRows table →
      (∀ r2 ∈ listingRows table, r2.user_id = best.user_id → r2 ≠ best →
        r2.last_message < best.last_message) →
      best ∈ listingQuery table) ∧
    (∀ p r rest, lookupResultRows table p = r :: rest →
      r ∈ lookupRows table p ∧
      ∀ r2 ∈ lookupRows table p, r2.user_id = r.user_id →
        r2.last_message ≤ r.last_message) := by
  rcases hex with ⟨r0, hr0t, hr0s, hr0uid⟩
  have hr0 : r0 ∈ listingRows table := by
    simp [listingRows]
    exact ⟨hr0t, hr0s⟩
  refine ⟨?_, ?_, ?_, ?_⟩
  · rcases distinctOnUser_exists (listingRows table) uid ⟨r0, hr0, hr0uid⟩ with
      ⟨r, hr, hruid⟩
    refine ⟨r, ⟨hr, hruid⟩, ?_⟩
    rintro y ⟨hy, hyuid⟩
    exact distinctOnUser_unique (listingRows table) y r hy hr (by rw [hyuid, hruid])
  · intro r hr
    exact distinctOnUser_mem (listingRows table) r hr
  · intro best hb hstrict
    exact distinctOnUser_strictmax (listingRows table) best hb hstrict
  · intro p r rest h
    have hmem := (take_one_eq_cons _ r rest h).1
    exact distinctOnUser_mem (lookupRows table p) r hmem

/-- Claim C5 witness: the de-duplication theorem on a concrete two-record store
where identity 1 has records at timestamps 10 and 20; the hypothesis is
discharged by evaluation and the strict-max conjunct returns the
timestamp-20 record. -/
theorem c5_listing_dedup_witness :
    (⟨"1", "new", some "A", true, 20⟩ : Row) ∈
      listingQuery [⟨"1", "old", some "B", true, 10⟩, ⟨"1", "new", some "A", true, 20⟩] :=
  (c5_listing_dedup [⟨"1", "old", some "B", true, 10⟩, ⟨"1", "new", some "A", true, 20⟩]
      "1" ⟨⟨"1", "new", some "A", true, 20⟩, by decide, rfl, rfl⟩).2.2.1
    ⟨"1", "new", some "A", true, 20⟩ (by decide) (by decide)

/-- Claim C6, counterexample to the claim as stated: the cache state with
payload `some []` and timestamp `some 0` is within its TTL window at
`now = 1` (`1 - 0 < 300000`), yet reading the listing mutates the cache:
the truthiness check on line 127 treats the stored timestamp 0 as
absent, so the read misses, re-queries the store and overwrites the
entry. -/
theorem c6_hit_read_cex :
    ((⟨some [], some 0, 300000⟩ : Cache).timestamp = some 0 ∧
      (⟨some [], some 0, 300000⟩ : Cache).data = some [] ∧
      ((1 : Int) - 0 < 300000)) ∧
    (handleDiscord ⟨some [], some 0, 300000⟩ 1
        (.ok [⟨"9", "x", none, true, 0⟩])).2 ≠ ⟨some [], some 0, 300000⟩ := by
  refine ⟨⟨rfl, rfl, by norm_num⟩, ?_⟩
  decide

/-- Claim C6 (amended): for every cache state whose entry is within its TTL
window and carries a nonzero timestamp, reading the listing does not
mutate the cache — payload, timestamp and TTL are all unchanged — and
repeated reads without an intervening store return the cached payload
identically each time, for every outcome the backing store would
produce, i.e. with no re-query of the store. -/
theorem c6_hit_read_pure (c : Cache) (t : Int) (d : List User)
    (hd : c.data = some d) (ht : c.timestamp = some t) (hnz : t ≠ 0) :
    (∀ now db, now - t < c.cacheTime → handleDiscord c now db = (.ok d, c)) ∧
    (∀ now now2 db db2, now - t < c.cacheTime → now2 - t < c.cacheTime →
      handleDiscord (handleDiscord c now db).2 now2 db2 = (.ok d, c)) := by
  have hone : ∀ now db, now - t < c.cacheTime → handleDiscord c now db = (.ok d, c) := by
    intro now db hfresh
    have hget : cacheGet c now = some d := by
      simp [cacheGet, hd, ht, hnz, hfresh]
    exact handleDiscord_hit c now db d hget
  refine ⟨hone, ?_⟩
  intro now now2 db db2 h1 h2
  rw [hone now db h1]
  exact hone now2 db2 h2

/-- Claim C6 witness: the amended theorem on the concrete fresh state with
timestamp 1000 read at times 2000 and 3000, hypotheses discharged by
evaluation. -/
theorem c6_hit_read_pure_witness :
    handleDiscord (handleDiscord ⟨some [], some 1000, 300000⟩ 2000 (.ok [])).2
        3000 (.error ()) = (.ok [], ⟨some [], some 1000, 300000⟩) :=
  (c6_hit_read_pure ⟨some [], some 1000, 300000⟩ 1000 [] rfl rfl (by norm_num)).2
    2000 3000 (.ok []) (.error ()) (by norm_num) (by norm_num)

/-- Claim C7: for every single-record lookup, an errored store query is answered
500 query-failed; a successful query with zero rows — which happens
exactly when no on-server record matches the path parameter by identity
or name, so absence and store failure are never conflated — is answered
404 not-found; and a successful query with a matching row is answered
200 with that one mapped record. -/
theorem c7_lookup_responses (table : List Row) (p : String) (e : Unit) :
    handleLookup (.error e) = .status 500 "Failed to fetch user" ∧
    (lookupResultRows table p = [] →
      handleLookup (.ok (lookupResultRows table p)) = .status 404 "User not found") ∧
    (∀ r rest, lookupResultRows table p = r :: rest →
      handleLookup (.ok (lookupResultRows table p)) = .ok (mapRow r) ∧
      statusCode (handleLookup (.ok (lookupResultRows table p))) = 200) ∧
    (lookupResultRows table p = [] ↔
      ∀ r ∈ table, r.on_server = true → r.user_id ≠ p ∧ r.username ≠ p) := by
  refine ⟨rfl, ?_, ?_, ?_⟩
  · intro h
    rw [h]
    rfl
  · intro r rest h
    rw [h]
    exact ⟨rfl, rfl⟩
  · have htake : ∀ l : List Row, l.take 1 = [] ↔ l = [] := by
      intro l
      cases l <;> simp
    rw [show lookupResultRows table p = (distinctOnUser (lookupRows table p)).take 1 from rfl,
      htake, distinctOnUser_eq_nil]
    simp [lookupRows, List.filter_eq_nil_iff]

/-- Claim C7 witness: the lookup theorem applied on an empty store (404 branch)
and on a one-record store (200 branch), hypotheses discharged by
evaluation. -/
theorem c7_lookup_responses_witness :
    handleLookup (.ok (lookupResultRows [] "x")) = .status 404 "User not found" ∧
    handleLookup (.ok (lookupResultRows [⟨"1", "u", none, true, 0⟩] "u")) =
      .ok (mapRow ⟨"1", "u", none, true, 0⟩) :=
  ⟨(c7_lookup_responses [] "x" ()).2.1 (by decide),
   ((c7_lookup_responses [⟨"1", "u", none, true, 0⟩] "u" ()).2.2.1
      ⟨"1", "u", none, true, 0⟩ [] (by decide)).1⟩

/-- Claim C8: requests without an `x-api-key` header are answered 401 with the
cache untouched and with a response independent of every store outcome
(no store or cache interaction); a supplied key that is not in the key
table is answered 401; a failing key-validation query is answered 500;
and the middleware reaches `next()` — the only way the listing handler,
hence any cache read or refresh, runs — exactly when the supplied key is
truthy and found in the table, every denial leaving the cache unchanged
and the response independent of the listing store. -/
theorem c8_api_key_gate (keys : List String) (k : String)
    (q : Except Unit (List String)) (c : Cache) (now : Int)
    (db : Except Unit (List Row)) (e : Unit) :
    guardedDiscord none q c now db = (.status 401 "API key is required", c) ∧
    (k ∉ keys →
      statusCode (guardedDiscord (some k) (.ok (apikeyQuery keys k)) c now db).1 = 401 ∧
      (guardedDiscord (some k) (.ok (apikeyQuery keys k)) c now db).2 = c) ∧
    (¬k = "" →
      guardedDiscord (some k) (.error e) c now db =
        (.status 500 "Authentication error", c)) ∧
    (authenticateApiKey (some k) (.ok (apikeyQuery keys k)) = .proceed ↔
      ¬k = "" ∧ k ∈ keys) ∧
    (∀ apiKey q2, authenticateApiKey apiKey q2 ≠ .proceed →
      (guardedDiscord apiKey q2 c now db).2 = c ∧
      ∀ db2, guardedDiscord apiKey q2 c now db = guardedDiscord apiKey q2 c now db2) := by
  have hquery : apikeyQuery keys k = [] ↔ k ∉ keys := by
    simp [apikeyQuery, List.filter_eq_nil_iff]
    constructor
    · intro h2 hk
      exact h2 k hk rfl
    · intro hk a ha he
      exact hk (he ▸ ha)
  refine ⟨rfl, ?_, ?_, ?_, ?_⟩
  · intro hk
    have hq : apikeyQuery keys k = [] := hquery.2 hk
    by_cases hemp : k = ""
    · simp [guardedDiscord, authenticateApiKey, hemp, statusCode]
    · simp [guardedDiscord, authenticateApiKey, hemp, hq, statusCode]
  · intro hemp
    simp [guardedDiscord, authenticateApiKey, hemp]
  · by_cases hemp : k = ""
    · simp [authenticateApiKey, hemp]
    · by_cases hk : k ∈ keys
      · have hq : ¬apikeyQuery keys k = [] := fun h2 => (hquery.1 h2) hk
        simp [authenticateApiKey, hemp, hq, hk]
      · have hq : apikeyQuery keys k = [] := hquery.2 hk
        simp [authenticateApiKey, hemp, hq, hk]
  · intro apiKey q2 hdeny
    cases hauth : authenticateApiKey apiKey q2 with
    | denied code msg => simp [guardedDiscord, hauth]
    | proceed => exact absurd hauth hdeny

/-- Claim C8 witness: the gate theorem on the concrete key table `["good"]`,
with the not-found and truthiness hypotheses discharged by evaluation. -/
theorem c8_api_key_gate_witness :
    statusCode (guardedDiscord (some "bad") (.ok (apikeyQuery ["good"] "bad"))
        cache0 0 (.ok [])).1 = 401 ∧
    (authenticateApiKey (some "good") (.ok (apikeyQuery ["good"] "good")) = .proceed ↔
      ¬"good" = "" ∧ "good" ∈ ["good"]) :=
  ⟨((c8_api_key_gate ["good"] "bad" (.ok []) cache0 0 (.ok []) ()).2.1
      (by decide)).1,
   (c8_api_key_gate ["good"] "good" (.ok []) cache0 0 (.ok []) ()).2.2.2.1⟩

/-- Claim C9: in every reachable cache state the payload is present if and only
if the timestamp is present, and the TTL is still the constant 300000;
both fields start absent at process start, and every request to the
guarded listing route either leaves the entry exactly as it was or
assigns payload and timestamp together in one replacement, so no
observable state pairs a payload with a timestamp it was not stored
with. -/
theorem c9_entry_invariant (c : Cache) (h : Reachable c) :
    (c.data.isSome ↔ c.timestamp.isSome) ∧ c.cacheTime = 300000 ∧
    cache0.data = none ∧ cache0.timestamp = none ∧
    (∀ apiKey q now db,
      (guardedDiscord apiKey q c now db).2 = c ∨
      ∃ users, (guardedDiscord apiKey q c now db).2 =
        { data := some users, timestamp := some now, cacheTime := c.cacheTime }) := by
  induction h with
  | init =>
    exact ⟨by simp [cache0], rfl, rfl, rfl,
      fun apiKey q now db => guardedDiscord_state apiKey q cache0 now db⟩
  | step c apiKey q now db hc ih =>
    rcases guardedDiscord_state apiKey q c now db with heq | ⟨users, heq⟩
    · rw [heq]
      exact ih
    · rw [heq]
      exact ⟨by simp, ih.2.1, rfl, rfl,
        fun apiKey2 q2 now2 db2 => guardedDiscord_state apiKey2 q2 _ now2 db2⟩

/-- Claim C9 witness: the invariant theorem at the initial state, its
reachability hypothesis discharged by the `init` constructor. -/
theorem c9_entry_invariant_witness :
    (cache0.data.isSome ↔ cache0.timestamp.isSome) ∧ cache0.cacheTime = 300000 :=
  ⟨(c9_entry_invariant cache0 Reachable.init).1,
   (c9_entry_invariant cache0 Reachable.init).2.1⟩

/-- Claim C10: the activity endpoints obtain their threshold by integer-parsing
the `msg` query parameter with fallback to 500 — a missing parameter, any
non-numeric parameter and an explicit 0 all yield 500; an identity
occurring in the trailing window (resp. in the fresh snapshot) is in the
result exactly when its aggregated (resp. differenced) message count is
strictly greater than the threshold; and an identity absent from the
earlier snapshot contributes a week-ago baseline of 0 to the
difference. -/
theorem c10_activity_thresholds :
    msgThreshold none = 500 ∧
    (∀ s, jsParseInt s = none → msgThreshold (some s) = 500) ∧
    msgThreshold (some "0") = 500 ∧
    (∀ rows d1 d2 q uid, uid ∈ (windowRows rows d1 d2).map MsgRow.userid →
      (uid ∈ coreUserIds rows d1 d2 (msgThreshold q) ↔
        msgThreshold q < totalFor (windowRows rows d1 d2) uid)) ∧
    (∀ srows fid q uid,
      uid ∈ (srows.filter (fun r => r.snapshot_id = fid)).map SnapRow.user_id →
      (uid ∈ snapshotDiffIds srows fid (msgThreshold q) ↔
        msgThreshold q < snapSum srows fid uid - snapSum srows (fid - 42) uid)) ∧
    (∀ srows fid uid,
      (∀ r ∈ srows, r.snapshot_id = fid - 42 → r.user_id ≠ uid) →
      snapSum srows (fid - 42) uid = 0) := by
  refine ⟨rfl, ?_, by decide, ?_, ?_, ?_⟩
  · intro s h
    simp [msgThreshold, h]
  · intro rows d1 d2 q uid hmem
    constructor
    · intro h
      have h2 := (List.mem_filter.1 h).2
      simpa using h2
    · intro h
      refine List.mem_filter.2 ⟨?_, by simpa using h⟩
      exact (mem_dedupFirst uid _ []).2 ⟨hmem, by simp⟩
  · intro srows fid q uid hmem
    constructor
    · intro h
      have h2 := (List.mem_filter.1 h).2
      simpa using h2
    · intro h
      refine List.mem_filter.2 ⟨?_, by simpa using h⟩
      exact (mem_dedupFirst uid _ []).2 ⟨hmem, by simp⟩
  · intro srows fid uid h
    have hnil : List.filter
        (fun r => decide (r.snapshot_id = fid - 42) && decide (r.user_id = uid)) srows = [] := by
      rw [List.filter_eq_nil_iff]
      intro r hr
      simp
      intro hsid
      exact h r hr hsid
    simp [snapSum, hnil]

/-- Claim C10 witness: the threshold and inclusion conjuncts applied at the
concrete parameter `"abc"` and a one-row activity table, hypotheses
discharged by evaluation. -/
theorem c10_activity_thresholds_witness :
    msgThreshold (some "abc") = 500 ∧
    ("u" ∈ coreUserIds [⟨"u", 0, 600⟩] 0 0 (msgThreshold none) ↔
      msgThreshold none < totalFor (windowRows [⟨"u", 0, 600⟩] 0 0) "u") ∧
    snapSum [⟨"v", 100, 7⟩] (100 - 42) "v" = 0 :=
  ⟨c10_activity_thresholds.2.1 "abc" (by decide),
   c10_activity_thresholds.2.2.2.1 [⟨"u", 0, 600⟩] 0 0 none "u" (by decide),
   c10_activity_thresholds.2.2.2.2.2 [⟨"v", 100, 7⟩] 100 "v" (by decide)⟩

end RolesApi
